import Mathlib

/-
  Verification of the host/session lifecycle manager of edit-in-neovim.

  The definitions below are a shallow embedding of the class `Neovim` in
  `src/Neovim.ts` (the current version of the file; the repository also
  carries two older, superseded copies of the same class, one of which is
  embedded as `openFileLegacy` where a claim refers to it).  External
  collaborators (file system, tmux, the spawned editor process, the RPC
  channel, the notification UI) are modelled as oracles in `Env`, and every
  observable interaction with them is recorded in a trace of `Effect`s.
-/

namespace EditInNeovim

/-! ## String helpers mirroring the JavaScript string primitives used by the source -/

/-- Boolean test that the first list is an initial segment of the second. -/
def strLeads : List Char → List Char → Bool
  | [], _ => true
  | _ :: _, [] => false
  | p :: ps, t :: ts => p == t && strLeads ps ts

/-- Boolean test that the first list occurs contiguously inside the second
(JavaScript `String.prototype.includes`). -/
def strHasSub (pat : List Char) : List Char → Bool
  | [] => strLeads pat []
  | t :: ts => strLeads pat (t :: ts) || strHasSub pat ts

/-- JavaScript `s.includes(sub)`. -/
def containsSub (s sub : String) : Bool := strHasSub sub.data s.data

/-- JavaScript `s.startsWith(p)`. -/
def jsStartsWith (s p : String) : Bool := strLeads p.data s.data

/-- JavaScript `s.endsWith(p)`. -/
def jsEndsWith (s p : String) : Bool := strLeads p.data.reverse s.data.reverse

/-- JavaScript `s.trim()` (restricted to the whitespace characters Lean knows). -/
def jsTrim (s : String) : String :=
  String.mk (((s.data.dropWhile Char.isWhitespace).reverse.dropWhile Char.isWhitespace).reverse)

/-- JavaScript `a || b` on strings: the empty string is falsy. -/
def jsOr (a b : String) : String := if a = "" then b else a

/-- Index of the last occurrence of `c`, scanning with explicit positions. -/
def lastIdxOfAux (c : Char) : List Char → Nat → Option Nat
  | [], _ => none
  | a :: as, i =>
    match lastIdxOfAux c as (i + 1) with
    | some j => some j
    | none => if a == c then some i else none

/-- JavaScript `s.lastIndexOf(c)`: the index of the last occurrence, `-1` if absent. -/
def jsLastIndexOf (s : String) (c : Char) : Int :=
  match lastIdxOfAux c s.data 0 with
  | some i => (i : Int)
  | none => -1

/-- The substring after the last colon (JavaScript `s.substring(s.lastIndexOf(":") + 1)`). -/
def afterLastColon (s : String) : String :=
  String.mk (s.data.drop ((jsLastIndexOf s ':').toNat + 1))

/-- The substring before the last colon (JavaScript `s.substring(0, s.lastIndexOf(":"))`). -/
def beforeLastColon (s : String) : String :=
  String.mk (s.data.take (jsLastIndexOf s ':').toNat)

/-- JavaScript `s.split(c)`. -/
def splitOnChar (c : Char) : List Char → List (List Char)
  | [] => [[]]
  | a :: as =>
    let r := splitOnChar c as
    if a == c then [] :: r
    else
      match r with
      | h :: t => (a :: h) :: t
      | [] => [[a]]

/-- JavaScript `s.split(c).at(-1)`: the last component of the split. -/
def jsSplitLast (s : String) (c : Char) : String :=
  String.mk ((splitOnChar c s.data).getLastD [])

/-- The regular expression `^\d+$`: a non-empty string of decimal digits. -/
def isAllDigits (s : String) : Bool := !s.data.isEmpty && s.data.all (fun c => c.isDigit)

/-- Hexadecimal digit test, for the `0x` branch of `parseInt`. -/
def isHexDigitB (c : Char) : Bool :=
  c.isDigit || (decide ('a' ≤ c) && decide (c ≤ 'f')) || (decide ('A' ≤ c) && decide (c ≤ 'F'))

/-- Numeric value of a (decimal or hexadecimal) digit character. -/
def hexVal (c : Char) : Nat :=
  if c.isDigit then c.toNat - 48
  else if decide ('a' ≤ c) && decide (c ≤ 'f') then c.toNat - 87
  else if decide ('A' ≤ c) && decide (c ≤ 'F') then c.toNat - 55
  else 0

/-- JavaScript `parseInt(s)` with no radix argument: skip leading whitespace,
an optional sign, an optional `0x`/`0X` hexadecimal marker, then the longest
run of digits; `none` models `NaN`. -/
def jsParseInt (s : String) : Option Int :=
  let cs := s.data.dropWhile Char.isWhitespace
  let signed : Bool × List Char :=
    match cs with
    | '-' :: rest => (true, rest)
    | '+' :: rest => (false, rest)
    | _ => (false, cs)
  let based : Nat × List Char :=
    match signed.2 with
    | '0' :: 'x' :: rest => (16, rest)
    | '0' :: 'X' :: rest => (16, rest)
    | _ => (10, signed.2)
  let digits := based.2.takeWhile (fun c => if based.1 == 16 then isHexDigitB c else c.isDigit)
  if digits.isEmpty then none
  else
    let n : Nat := digits.foldl (fun acc c => acc * based.1 + hexVal c) 0
    some (if signed.1 then -(n : Int) else (n : Int))

/-! ## Data model (`Settings.ts` and the fields of class `Neovim`) -/

/-- The `hostMode` setting: `"nvim"` (direct spawn) or `"tmux"`. -/
inductive HostMode where
  | nvim
  | tmux
deriving DecidableEq, Repr

/-- The `EditInNeovimSettings` interface from `Settings.ts`. -/
structure EditInNeovimSettings where
  hostMode : HostMode
  terminal : String
  listenOn : String
  openNeovimOnLoad : Bool
  supportedFileTypes : List String
  pathToBinary : String
  appname : String
  tmuxSessionName : String
  tmuxAttachOnStart : Bool
  tmuxKeepAliveOnQuit : Bool
deriving DecidableEq, Repr

/-- The private `startedVia` field of class `Neovim`. -/
inductive StartedVia where
  | headless
  | terminal
  | tmux
  | unknown
deriving DecidableEq, Repr

/-- The mutable fields of class `Neovim`.  `rpc` models the field named
`instance` in the source (`instance` is a Lean keyword); `process` is the
child-process handle; the three binary fields are the constructor-time
resolution results (`nvimBinary` stores the resolved path, `some ""`
standing for the fallback descriptor with an empty path). -/
structure NeovimState where
  rpc : Option Nat
  process : Option Nat
  startedVia : StartedVia
  termBinary : Option String
  tmuxBinary : Option String
  nvimBinary : Option String
  apiKey : Option String
deriving DecidableEq, Repr

/-- The state of a freshly constructed `Neovim` object: no handles, `startedVia`
unknown, binaries as resolved by the constructor. -/
def initialState (termB tmuxB nvimB : Option String) (apiKey : Option String) : NeovimState :=
  ⟨none, none, StartedVia.unknown, termB, tmuxB, nvimB, apiKey⟩

/-- The distinct user-visible notices the source can raise. -/
inductive NoticeKind where
  | alreadyRunning
  | noNvimBinary
  | serverStarted
  | instanceStarted
  | failedConnect
  | failedCreateProcess
  | spawnError
  | tmuxUnsupportedPlatform
  | tmuxNotFound
  | portConflict
  | tmuxStartFailed
  | tmuxRunning
  | tmuxConnectFailedSocketMissing
  | tmuxConnectFailed
  | tmuxAttachNoTerminal
  | tmuxAttachFailed
  | closedNotice
  | tmuxKilled
  | tmuxKillFailed
  | tmuxDisconnectedNoTmux
  | bufferError
deriving DecidableEq, Repr

/-- Observable interactions with the outside world. -/
inductive Effect where
  | notice (k : NoticeKind)
  | hasSessionQuery (name : String)
  | portQuery (port : String)
  | tmuxExec (args : List String)
  | spawnProc (bin : String) (args : List String) (extraEnv : List (String × String))
  | spawnTerminalAttach (name : String)
  | connectTCP (host : String) (port : Int)
  | connectPipe (path : String)
  | killProc (pid : Nat)
  | quitRpc (h : Nat)
  | remoteOpen (server : String) (path : String)
  | remoteOpenShell (server : String) (path : String)
deriving DecidableEq, Repr

/-- Oracles for the external collaborators: platform, file system, tmux,
process spawning, the RPC probe and the buffer query.  A field fixes the
outcome the environment would produce for the corresponding interaction. -/
structure Env where
  win32 : Bool
  basePath : String
  getFullPath : String → String
  tmuxHasSessionO : String → Bool
  portInUse : String → Bool
  spawnThrows : Bool
  spawnPid : Option Nat
  attachSpawnThrows : Bool
  probe : Nat → Bool
  rpcId : Nat
  tmuxNewSessionOk : Bool
  tmuxKillOk : Bool
  envBinExists : Bool
  sockExists : Bool
  terminalSpawnArgs : List String
  buffersResult : Nat → Except String (List Nat)

/-- The Obsidian `TFile` fields used by `openFile`. -/
structure TFile where
  path : String
  extension : String
  basename : String
deriving DecidableEq, Repr

/-! ## Readiness prober / RPC attacher (`attachToServer`, `waitForServerReady`) -/

/-- How `attachToServer` interprets the configured listen address: a TCP
host:port pair, a filesystem socket / named-pipe path, or an address whose
port fails to parse (in which case the source throws before connecting). -/
inductive AttachPlan where
  | tcp (host : String) (port : Int)
  | unixSocket (path : String)
  | invalidPort (addr : String)
deriving DecidableEq, Repr

/-- The address-parsing logic of `attachToServer` (Neovim.ts lines 103-113):
`const colonIdx = listenAddr.lastIndexOf(':')`; if `colonIdx > 0` and the
address neither starts with `/` nor contains a double backslash, parse the
substring after the last colon with `parseInt`, throwing on `NaN`; otherwise
the whole string is a socket path. -/
def attachPlan (listenAddr : String) : AttachPlan :=
  let colonIdx := jsLastIndexOf listenAddr ':'
  if colonIdx > 0 && !jsStartsWith listenAddr "/" && !containsSub listenAddr "\\\\" then
    match jsParseInt (afterLastColon listenAddr) with
    | none => AttachPlan.invalidPort listenAddr
    | some p => AttachPlan.tcp (beforeLastColon listenAddr) p
  else AttachPlan.unixSocket listenAddr

/-- One attach attempt (`attachToServer`): open the connection dictated by the
parsed address, wrap it in an RPC handle and probe it with `eval("1")`;
on any failure the handle field is reset to `undefined` and the attempt
reports `false`.  `env.probe elapsed` decides whether the combined
connect-and-eval attempt at time `elapsed` succeeds.  Returns the updated
state, the connection effects, and the success flag. -/
def attachToServer (cfg : EditInNeovimSettings) (env : Env) (s : NeovimState)
    (elapsed : Nat) : NeovimState × List Effect × Bool :=
  match attachPlan cfg.listenOn with
  | AttachPlan.invalidPort _ => ({s with rpc := none}, [], false)
  | AttachPlan.tcp h p =>
    if env.probe elapsed then ({s with rpc := some env.rpcId}, [Effect.connectTCP h p], true)
    else ({s with rpc := none}, [Effect.connectTCP h p], false)
  | AttachPlan.unixSocket path =>
    if env.probe elapsed then ({s with rpc := some env.rpcId}, [Effect.connectPipe path], true)
    else ({s with rpc := none}, [Effect.connectPipe path], false)

/-- Result of the polling loop: final state, accumulated effects, success
flag, and the value of `Date.now() - start` when the loop finished. -/
structure WaitResult where
  state : NeovimState
  trace : List Effect
  ready : Bool
  elapsed : Nat
deriving DecidableEq, Repr

/-- The polling loop of `waitForServerReady` (lines 127-131): while the
elapsed time is below the timeout, try one attach; on success stop, otherwise
sleep 200ms and retry.  Under the single-threaded cooperative model time
advances only across the 200ms sleeps. -/
def waitLoop (cfg : EditInNeovimSettings) (env : Env) (s : NeovimState)
    (timeoutMs elapsed : Nat) : WaitResult :=
  if h : elapsed < timeoutMs then
    let r := attachToServer cfg env s elapsed
    if r.2.2 then ⟨r.1, r.2.1, true, elapsed⟩
    else
      let rest := waitLoop cfg env r.1 timeoutMs (elapsed + 200)
      ⟨rest.state, r.2.1 ++ rest.trace, rest.ready, rest.elapsed⟩
  else ⟨s, [], false, elapsed⟩
termination_by timeoutMs - elapsed
decreasing_by omega

/-- Function `waitForServerReady(timeoutMs)`: poll attach from elapsed time 0. -/
def waitForServerReady (cfg : EditInNeovimSettings) (env : Env) (s : NeovimState)
    (timeoutMs : Nat) : WaitResult :=
  waitLoop cfg env s timeoutMs 0

/-! ## Shutdown (`disconnect`, `close`, `onObsidianQuit`) -/

/-- Method `disconnect` (lines 404-408): drop the RPC handle and the process handle
without contacting anything. -/
def disconnect (s : NeovimState) : NeovimState :=
  {s with rpc := none, process := none}

/-- Method `close` (lines 418-447).  In tmux mode: kill the named session when the
tmux binary is known (reporting success or failure), and in every case drop
the local handles via `disconnect`.  Otherwise: signal the process, ask the
RPC handle to quit, clear both, and report. -/
def close (cfg : EditInNeovimSettings) (env : Env) (s : NeovimState) :
    NeovimState × List Effect :=
  if s.startedVia = StartedVia.tmux then
    let sessionName := jsTrim (jsOr cfg.tmuxSessionName "edit-in-neovim")
    match s.tmuxBinary with
    | none => (disconnect s, [Effect.notice NoticeKind.tmuxDisconnectedNoTmux])
    | some _ =>
      if env.tmuxKillOk then
        (disconnect s, [Effect.tmuxExec ["kill-session", "-t", sessionName],
                        Effect.notice NoticeKind.tmuxKilled])
      else
        (disconnect s, [Effect.tmuxExec ["kill-session", "-t", sessionName],
                        Effect.notice NoticeKind.tmuxKillFailed])
  else
    let fxKill := match s.process with
      | some pid => [Effect.killProc pid]
      | none => []
    let fxQuit := match s.rpc with
      | some h => [Effect.quitRpc h]
      | none => []
    ({s with rpc := none, process := none},
     fxKill ++ fxQuit ++ [Effect.notice NoticeKind.closedNotice])

/-- Method `onObsidianQuit` (lines 410-416): in tmux mode with the keep-alive flag,
only disconnect locally; otherwise perform a full close. -/
def onObsidianQuit (cfg : EditInNeovimSettings) (env : Env) (s : NeovimState) :
    NeovimState × List Effect :=
  if s.startedVia = StartedVia.tmux ∧ cfg.tmuxKeepAliveOnQuit = true then
    (disconnect s, [])
  else close cfg env s

/-! ## Launch strategies (`spawnHeadless`, `spawnWithTerminal`, `spawnWithTmux`) -/

/-- The environment-variable overlay built at the top of `newInstance`
(lines 85-87): the REST API key when the (truthy) key is present, and
`NVIM_APPNAME` when `appname` is non-empty. -/
def buildExtraEnv (cfg : EditInNeovimSettings) (s : NeovimState) : List (String × String) :=
  (match s.apiKey with
   | some k => if k = "" then [] else [("OBSIDIAN_REST_API_KEY", k)]
   | none => []) ++
  (if cfg.appname ≠ "" then [("NVIM_APPNAME", cfg.appname)] else [])

/-- Method `spawnHeadless` (lines 134-171): set `startedVia`, spawn the editor with
`--headless --listen`, bail out if the spawn throws or yields no pid, then
wait for readiness; on timeout, report and `close()` what was started. -/
def spawnHeadless (cfg : EditInNeovimSettings) (env : Env)
    (extraEnvVars : List (String × String)) (s : NeovimState) :
    NeovimState × List Effect :=
  let spawnArgs := ["--headless", "--listen", cfg.listenOn]
  let s1 := {s with startedVia := StartedVia.headless}
  if env.spawnThrows then
    ({s1 with process := none, rpc := none}, [Effect.notice NoticeKind.spawnError])
  else
    let fxSpawn := Effect.spawnProc (s.nvimBinary.getD "") spawnArgs extraEnvVars
    match env.spawnPid with
    | none => ({s1 with process := none}, [fxSpawn, Effect.notice NoticeKind.failedCreateProcess])
    | some pid =>
      let s2 := {s1 with process := some pid}
      let w := waitForServerReady cfg env s2 7000
      if w.ready then
        (w.state, fxSpawn :: (w.trace ++ [Effect.notice NoticeKind.serverStarted]))
      else
        let c := close cfg env w.state
        (c.1, fxSpawn :: (w.trace ++ Effect.notice NoticeKind.failedConnect :: c.2))

/-- Method `spawnWithTerminal` (lines 173-217): like `spawnHeadless` but the spawned
binary is the terminal emulator with arguments supplied by the platform
launcher policy (`configureProcessSpawnArgs`, modelled by
`env.terminalSpawnArgs`), and a readiness timeout does NOT kill the terminal
window (the source deliberately leaves it open). -/
def spawnWithTerminal (cfg : EditInNeovimSettings) (env : Env)
    (extraEnvVars : List (String × String)) (s : NeovimState) :
    NeovimState × List Effect :=
  let s1 := {s with startedVia := StartedVia.terminal}
  if env.spawnThrows then
    ({s1 with process := none, rpc := none}, [Effect.notice NoticeKind.spawnError])
  else
    let fxSpawn := Effect.spawnProc (s.termBinary.getD "") env.terminalSpawnArgs extraEnvVars
    match env.spawnPid with
    | none => ({s1 with process := none}, [fxSpawn, Effect.notice NoticeKind.failedCreateProcess])
    | some pid =>
      let s2 := {s1 with process := some pid}
      let w := waitForServerReady cfg env s2 7000
      if w.ready then
        (w.state, fxSpawn :: (w.trace ++ [Effect.notice NoticeKind.instanceStarted]))
      else
        (w.state, fxSpawn :: (w.trace ++ [Effect.notice NoticeKind.failedConnect]))

/-- Method `spawnTerminalToAttachTmux` (lines 256-279): best-effort spawn of a
terminal window running `tmux attach -t <session>`; a missing terminal
binary or a throwing spawn only produces a notice. -/
def spawnTerminalToAttachTmux (env : Env) (s : NeovimState) (sessionName : String) :
    List Effect :=
  match s.termBinary with
  | none => [Effect.notice NoticeKind.tmuxAttachNoTerminal]
  | some _ =>
    if env.attachSpawnThrows then [Effect.notice NoticeKind.tmuxAttachFailed]
    else [Effect.spawnTerminalAttach sessionName]

/-- The TCP-port extraction at the top of `spawnWithTmux` (lines 296-299):
`portStr` is the substring after the last colon when that colon is past
position 0; the address counts as a TCP listen address when `portStr`
matches `^\d+$` and the address does not start with `/`. -/
def tmuxListenPort (listenAddr : String) : Option String :=
  let colonIdx := jsLastIndexOf listenAddr ':'
  let portStr := if colonIdx > 0 then afterLastColon listenAddr else ""
  if colonIdx > 0 && isAllDigits portStr && !jsStartsWith listenAddr "/" then some portStr
  else none

/-- The tail of `spawnWithTmux` past the port-conflict refusal (lines
315-358): create the session when absent (the attempted `new-session`
command and a refusal when it fails), optionally spawn a terminal to attach,
then poll for readiness and report one of the three outcome notices. -/
def spawnWithTmuxGo (cfg : EditInNeovimSettings) (env : Env)
    (extraEnvVars : List (String × String)) (s1 : NeovimState) (sessionName : String)
    (port : Option String) (sessionExists : Bool) : NeovimState × List Effect :=
  let envBin := if env.envBinExists then "/usr/bin/env" else "env"
  let envPairs := extraEnvVars.map (fun kv => kv.1 ++ "=" ++ kv.2)
  let newSessionArgs :=
    ["new-session", "-d", "-s", sessionName, "-c", env.basePath, envBin] ++ envPairs ++
      [s1.nvimBinary.getD "", "--listen", cfg.listenOn]
  if !sessionExists && !env.tmuxNewSessionOk then
    (s1, [Effect.tmuxExec newSessionArgs, Effect.notice NoticeKind.tmuxStartFailed])
  else
    let fxCreate := if sessionExists then [] else [Effect.tmuxExec newSessionArgs]
    let fxAttach := if cfg.tmuxAttachOnStart then spawnTerminalToAttachTmux env s1 sessionName
      else []
    let w := waitForServerReady cfg env s1 7000
    let fxDone :=
      if w.ready then [Effect.notice NoticeKind.tmuxRunning]
      else if !port.isSome && !env.sockExists then
        [Effect.notice NoticeKind.tmuxConnectFailedSocketMissing]
      else [Effect.notice NoticeKind.tmuxConnectFailed]
    (w.state, fxCreate ++ fxAttach ++ w.trace ++ fxDone)

/-- Method `spawnWithTmux` (lines 281-359): refuse on Windows or without a tmux
binary; mark the session as tmux-started; query session existence; when the
listen address is TCP, query the port and refuse (`PortConflict`) if it is
busy and no session of the configured name exists; otherwise continue with
`spawnWithTmuxGo`. -/
def spawnWithTmux (cfg : EditInNeovimSettings) (env : Env)
    (extraEnvVars : List (String × String)) (s : NeovimState) :
    NeovimState × List Effect :=
  if env.win32 then (s, [Effect.notice NoticeKind.tmuxUnsupportedPlatform])
  else
    match s.tmuxBinary with
    | none => (s, [Effect.notice NoticeKind.tmuxNotFound])
    | some _ =>
      let s1 := {s with startedVia := StartedVia.tmux}
      let sessionName := jsTrim (jsOr cfg.tmuxSessionName "edit-in-neovim")
      let port := tmuxListenPort cfg.listenOn
      let sessionExists := env.tmuxHasSessionO sessionName
      let fxHas := [Effect.hasSessionQuery sessionName]
      let fxPort := match port with
        | none => []
        | some p => [Effect.portQuery p]
      let portBusy := match port with
        | none => false
        | some p => env.portInUse p
      if portBusy && !sessionExists then
        (s1, fxHas ++ fxPort ++ [Effect.notice NoticeKind.portConflict])
      else
        let r := spawnWithTmuxGo cfg env extraEnvVars s1 sessionName port sessionExists
        (r.1, fxHas ++ fxPort ++ r.2)

/-! ## Launch entry point (`newInstance`) -/

/-- Method `newInstance` (lines 74-97): refuse when in nvim host mode with a live
process handle; refuse when no usable editor binary was resolved; otherwise
dispatch to the tmux, headless or terminal strategy. -/
def newInstance (cfg : EditInNeovimSettings) (env : Env) (s : NeovimState) :
    NeovimState × List Effect :=
  if cfg.hostMode = HostMode.nvim ∧ s.process.isSome = true then
    (s, [Effect.notice NoticeKind.alreadyRunning])
  else if s.nvimBinary = none ∨ s.nvimBinary = some "" then
    (s, [Effect.notice NoticeKind.noNvimBinary])
  else
    let extraEnvVars := buildExtraEnv cfg s
    if cfg.hostMode = HostMode.tmux then spawnWithTmux cfg env extraEnvVars s
    else if s.termBinary = none then spawnHeadless cfg env extraEnvVars s
    else spawnWithTerminal cfg env extraEnvVars s

/-- Spec-side strategy selection rule (spec section 4.2), written from the
spec words for comparison with the dispatch inside `newInstance`: tmux host
mode selects tmux regardless of terminal availability, otherwise headless
exactly when no terminal binary resolved. -/
inductive LaunchStrategy where
  | headless
  | terminal
  | tmux
deriving DecidableEq, Repr

/-- Spec-side selector (spec section 4.2). -/
def selectStrategySpec (hostMode : HostMode) (termAvailable : Bool) : LaunchStrategy :=
  if hostMode = HostMode.tmux then LaunchStrategy.tmux
  else if !termAvailable then LaunchStrategy.headless
  else LaunchStrategy.terminal

/-! ## Command dispatcher (`openFile`) and buffer query (`getBuffers`) -/

/-- Method `openFile` in the current `Neovim.ts` (lines 361-402): bail out when the
file is null, the editor binary path is falsy, or the extension (including
the excalidraw compound-suffix special case) is unsupported; otherwise issue
`nvim --server <listenOn> --remote <absolutePath>` unconditionally.  The
completion callback only classifies stderr into notices and is not part of
the dispatch decision. -/
def openFile (cfg : EditInNeovimSettings) (env : Env) (s : NeovimState)
    (file : Option TFile) : List Effect :=
  match file with
  | none => []
  | some f =>
    if s.nvimBinary.getD "" = "" then []
    else
      let isExcalidrawMd := f.extension == "md" && jsEndsWith f.path ".excalidraw.md"
      let isSupported := cfg.supportedFileTypes.contains f.extension ||
        (isExcalidrawMd && cfg.supportedFileTypes.contains "excalidraw")
      if !isSupported then []
      else [Effect.remoteOpen cfg.listenOn (env.getFullPath f.path)]

/-- Method `openFile` in the superseded copy of the class (src/unnamed/part_000,
lines 281-342): after the same file checks it reads the last `:`-separated
component of the listen address as a port, bails out when neither a live
instance-and-process pair nor a port exists, then bails out unless the port
reachability query succeeds, and finally issues the remote open twice (a
shell `exec` and an `execFile`).  The query-throwing catch branch is not
modelled (the oracle always resolves). -/
def openFileLegacy (cfg : EditInNeovimSettings) (env : Env) (s : NeovimState)
    (file : Option TFile) : List Effect :=
  match file with
  | none => []
  | some f =>
    if s.nvimBinary.getD "" = "" then []
    else
      let isExcalidrawMd := f.extension == "md" && jsEndsWith f.path ".excalidraw.md"
      let isSupported := cfg.supportedFileTypes.contains f.extension ||
        (isExcalidrawMd && cfg.supportedFileTypes.contains "excalidraw")
      if !isSupported then []
      else
        let port := jsSplitLast cfg.listenOn ':'
        if !(s.rpc.isSome && s.process.isSome) && port == "" then []
        else if port == "" then []
        else if !env.portInUse port then [Effect.portQuery port]
        else
          [Effect.portQuery port,
           Effect.remoteOpenShell cfg.listenOn (env.getFullPath f.path),
           Effect.remoteOpen cfg.listenOn (env.getFullPath f.path)]

/-- Method `getBuffers` (lines 63-72): empty list without an RPC handle; otherwise
the buffer query, catching any failure into a notice and an empty list. -/
def getBuffers (env : Env) (s : NeovimState) : List Nat × List Effect :=
  match s.rpc with
  | none => ([], [])
  | some h =>
    match env.buffersResult h with
    | Except.ok bufs => (bufs, [])
    | Except.error _ => ([], [Effect.notice NoticeKind.bufferError])

/-! ## Session-level transition system

The host application drives the class through these entry points; process
lifecycle callbacks (`error`, `close`, `disconnect`, `exit` registered in
`registerProcessEvents`, lines 219-244) all clear both handles. -/

/-- One external stimulus to the class.  The configuration is carried per
event because the source re-reads the shared mutable `settings` object on
every call, so it can differ between calls. -/
inductive Event where
  | launch (cfg : EditInNeovimSettings) (env : Env)
  | hostQuit (cfg : EditInNeovimSettings) (env : Env)
  | closeCmd (cfg : EditInNeovimSettings) (env : Env)
  | disconnectCmd
  | procTerminated
  | openFileCmd (cfg : EditInNeovimSettings) (env : Env) (f : Option TFile)

/-- State transition of one event. -/
def stepState (s : NeovimState) : Event → NeovimState
  | Event.launch cfg env => (newInstance cfg env s).1
  | Event.hostQuit cfg env => (onObsidianQuit cfg env s).1
  | Event.closeCmd cfg env => (close cfg env s).1
  | Event.disconnectCmd => disconnect s
  | Event.procTerminated => {s with process := none, rpc := none}
  | Event.openFileCmd _ _ _ => s

/-- Reachability of a session state from an initial state under any sequence
of external stimuli. -/
inductive Reachable (s0 : NeovimState) : NeovimState → Prop
  | refl : Reachable s0 s0
  | step (e : Event) {s : NeovimState} (h : Reachable s0 s) : Reachable s0 (stepState s e)

/-! ## Concrete instances used by witnesses and counterexamples -/

/-- A configuration with the default listen address and nvim host mode. -/
def baseCfg : EditInNeovimSettings :=
  { hostMode := HostMode.nvim, terminal := "", listenOn := "127.0.0.1:2006",
    openNeovimOnLoad := true, supportedFileTypes := ["txt", "md"], pathToBinary := "",
    appname := "", tmuxSessionName := "", tmuxAttachOnStart := false,
    tmuxKeepAliveOnQuit := false }

/-- Configuration `baseCfg` switched to tmux host mode. -/
def tmuxCfg : EditInNeovimSettings := {baseCfg with hostMode := HostMode.tmux}

/-- An environment in which every external interaction succeeds. -/
def baseEnv : Env :=
  { win32 := false, basePath := "/vault",
    getFullPath := fun p => String.append "/vault/" p,
    tmuxHasSessionO := fun _ => false, portInUse := fun _ => false,
    spawnThrows := false, spawnPid := some 42, attachSpawnThrows := false,
    probe := fun _ => true, rpcId := 7, tmuxNewSessionOk := true, tmuxKillOk := true,
    envBinExists := true, sockExists := false,
    terminalSpawnArgs := ["-e", "/usr/bin/nvim", "--listen", "127.0.0.1:2006"],
    buffersResult := fun _ => Except.ok [1, 2] }

/-- Environment `baseEnv` with nothing listening on any address and no tmux session. -/
def deadEnv : Env := {baseEnv with probe := fun _ => false}

/-- Environment `baseEnv` in which the configured tmux session already exists. -/
def sessionEnv : Env := {baseEnv with tmuxHasSessionO := fun _ => true}

/-- Environment `sessionEnv` with the TCP port already bound by someone. -/
def busySessionEnv : Env := {sessionEnv with portInUse := fun _ => true}

/-- Environment `baseEnv` with the TCP port bound and no tmux session. -/
def busyEnv : Env := {baseEnv with portInUse := fun _ => true}

/-- A freshly constructed state with no terminal binary (headless fallback)
and resolved tmux and editor binaries. -/
def freshState : NeovimState :=
  initialState none (some "/usr/bin/tmux") (some "/usr/bin/nvim") none

/-- A state holding a live process and RPC handle under the headless strategy. -/
def headlessLiveState : NeovimState :=
  ⟨some 7, some 42, StartedVia.headless, none, some "/usr/bin/tmux", some "/usr/bin/nvim", none⟩

/-- The state reached from `headlessLiveState` by a tmux-mode launch: the
stale process handle survives while `startedVia` becomes tmux. -/
def tmuxStaleState : NeovimState :=
  ⟨some 7, some 42, StartedVia.tmux, none, some "/usr/bin/tmux", some "/usr/bin/nvim", none⟩

/-- A state holding only an RPC handle under the tmux strategy. -/
def tmuxLiveState : NeovimState :=
  ⟨some 7, none, StartedVia.tmux, none, some "/usr/bin/tmux", some "/usr/bin/nvim", none⟩

/-- A markdown file inside the vault. -/
def mdFile : TFile := ⟨"a.md", "md", "a"⟩

/-- Configuration `tmuxCfg` with the keep-alive-on-quit flag set. -/
def keepAliveCfg : EditInNeovimSettings := {tmuxCfg with tmuxKeepAliveOnQuit := true}

/-- Configuration `baseCfg` with a listen address whose trailing port is unparsable. -/
def badPortCfg : EditInNeovimSettings := {baseCfg with listenOn := "127.0.0.1:"}

/-- Configuration `baseCfg` with a filesystem socket path as listen address. -/
def sockCfg : EditInNeovimSettings := {baseCfg with listenOn := "/tmp/nvim.sock"}

/-! ## Shared lemmas about the polling loop and shutdown -/

/-- Unfolding of `waitLoop` while the timeout has not elapsed. -/
theorem waitLoop_pos (cfg : EditInNeovimSettings) (env : Env) (s : NeovimState)
    {timeoutMs elapsed : Nat} (h : elapsed < timeoutMs) :
    waitLoop cfg env s timeoutMs elapsed =
      (let r := attachToServer cfg env s elapsed
       if r.2.2 then ⟨r.1, r.2.1, true, elapsed⟩
       else
         let rest := waitLoop cfg env r.1 timeoutMs (elapsed + 200)
         ⟨rest.state, r.2.1 ++ rest.trace, rest.ready, rest.elapsed⟩) := by
  rw [waitLoop]
  simp [h]

/-- Unfolding of `waitLoop` once the timeout has elapsed. -/
theorem waitLoop_neg (cfg : EditInNeovimSettings) (env : Env) (s : NeovimState)
    {timeoutMs elapsed : Nat} (h : ¬ elapsed < timeoutMs) :
    waitLoop cfg env s timeoutMs elapsed = ⟨s, [], false, elapsed⟩ := by
  rw [waitLoop]
  simp [h]

/-- When the very first probe succeeds against a TCP address, the wait loop
stops immediately with the RPC handle installed. -/
theorem waitReady_first (cfg : EditInNeovimSettings) (env : Env) (s : NeovimState)
    {t : Nat} (ht : 0 < t) (hpr : env.probe 0 = true) {host : String} {prt : Int}
    (hplan : attachPlan cfg.listenOn = AttachPlan.tcp host prt) :
    waitForServerReady cfg env s t =
      ⟨{s with rpc := some env.rpcId}, [Effect.connectTCP host prt], true, 0⟩ := by
  rw [waitForServerReady, waitLoop_pos cfg env s ht]
  simp [attachToServer, hplan, hpr]

/-- A single attach attempt fails whenever the probe at that instant fails
(in particular it always fails when nothing is listening). -/
theorem attachToServer_fail (cfg : EditInNeovimSettings) (env : Env) (s : NeovimState)
    {elapsed : Nat} (h : env.probe elapsed = false) :
    (attachToServer cfg env s elapsed).2.2 = false := by
  unfold attachToServer
  cases attachPlan cfg.listenOn <;> simp [h]

/-- A single attach attempt only records connection effects, never a notice. -/
theorem attachToServer_trace (cfg : EditInNeovimSettings) (env : Env) (s : NeovimState)
    (elapsed : Nat) (n : NoticeKind) :
    Effect.notice n ∉ (attachToServer cfg env s elapsed).2.1 := by
  unfold attachToServer
  cases attachPlan cfg.listenOn <;> by_cases h : env.probe elapsed <;> simp [h]

/-- The wait loop records only connection effects, never a notice. -/
theorem waitLoop_trace_connects (cfg : EditInNeovimSettings) (env : Env) (t : Nat) :
    ∀ (k e : Nat) (s : NeovimState), t - e ≤ k → ∀ n : NoticeKind,
      Effect.notice n ∉ (waitLoop cfg env s t e).trace := by
  intro k
  induction k with
  | zero =>
    intro e s hk n
    rw [waitLoop_neg cfg env s (by omega)]
    simp
  | succ k ih =>
    intro e s hk n
    by_cases h : e < t
    · rw [waitLoop_pos cfg env s h]
      by_cases hr : (attachToServer cfg env s e).2.2
      · simpa [hr] using attachToServer_trace cfg env s e n
      · simp only [hr]
        simp only [Bool.false_eq_true, if_false, List.mem_append, not_or]
        exact ⟨attachToServer_trace cfg env s e n,
               ih (e + 200) (attachToServer cfg env s e).1 (by omega) n⟩
    · rw [waitLoop_neg cfg env s h]
      simp

/-- When every probe fails, the wait loop ends unready, within one poll
interval past the timeout, on a 200ms boundary. -/
theorem waitLoop_allFail (cfg : EditInNeovimSettings) (env : Env)
    (hpr : ∀ n, env.probe n = false) (t : Nat) :
    ∀ (k e : Nat) (s : NeovimState), t - e ≤ k → e < t + 200 → e % 200 = 0 →
      ((waitLoop cfg env s t e).ready = false ∧
       (waitLoop cfg env s t e).elapsed < t + 200 ∧
       (waitLoop cfg env s t e).elapsed % 200 = 0) := by
  intro k
  induction k with
  | zero =>
    intro e s hk he hm
    rw [waitLoop_neg cfg env s (by omega)]
    exact ⟨rfl, he, hm⟩
  | succ k ih =>
    intro e s hk he hm
    by_cases h : e < t
    · rw [waitLoop_pos cfg env s h]
      have hfail := attachToServer_fail cfg env s (hpr e)
      simp only [hfail]
      simp only [Bool.false_eq_true, if_false]
      exact ih (e + 200) (attachToServer cfg env s e).1 (by omega) (by omega) (by omega)
    · rw [waitLoop_neg cfg env s h]
      exact ⟨rfl, he, hm⟩

/-- A single attach attempt succeeds whenever the address plan is not an
invalid port and the probe at that instant succeeds. -/
theorem attachToServer_ok (cfg : EditInNeovimSettings) (env : Env) (s : NeovimState)
    {elapsed : Nat} (hplan : ∀ a, attachPlan cfg.listenOn ≠ AttachPlan.invalidPort a)
    (h : env.probe elapsed = true) :
    (attachToServer cfg env s elapsed).2.2 = true := by
  unfold attachToServer
  cases hc : attachPlan cfg.listenOn <;> simp [h]
  exact hplan _ hc

/-- When the first successful probe on the 200ms grid lies inside the
timeout window, the wait loop stops there with success. -/
theorem waitLoop_firstSuccess (cfg : EditInNeovimSettings) (env : Env)
    (hplan : ∀ a, attachPlan cfg.listenOn ≠ AttachPlan.invalidPort a) (t e : Nat)
    (he : e < t) (hem : e % 200 = 0) (hp : env.probe e = true)
    (hmin : ∀ e2, e2 < e → e2 % 200 = 0 → env.probe e2 = false) :
    ∀ (k e0 : Nat) (s : NeovimState), t - e0 ≤ k → e0 % 200 = 0 → e0 ≤ e →
      (waitLoop cfg env s t e0).ready = true ∧ (waitLoop cfg env s t e0).elapsed = e := by
  intro k
  induction k with
  | zero =>
    intro e0 s hk hm0 hle
    omega
  | succ k ih =>
    intro e0 s hk hm0 hle
    by_cases heq : e0 = e
    · subst heq
      rw [waitLoop_pos cfg env s he]
      simp [attachToServer_ok cfg env s hplan hp]
    · have hlt : e0 < e := lt_of_le_of_ne hle heq
      have hfail := attachToServer_fail cfg env s (hmin e0 hlt hm0)
      rw [waitLoop_pos cfg env s (by omega)]
      simp only [hfail]
      simp only [Bool.false_eq_true, if_false]
      exact ih (e0 + 200) (attachToServer cfg env s e0).1 (by omega) (by omega) (by omega)

/-- Method `close` always clears both handles and touches nothing else in the state. -/
theorem close_clears (cfg : EditInNeovimSettings) (env : Env) (s : NeovimState) :
    (close cfg env s).1 = {s with rpc := none, process := none} := by
  unfold close disconnect
  by_cases h : s.startedVia = StartedVia.tmux
  · simp only [h, if_true]
    cases s.tmuxBinary <;> by_cases hk : env.tmuxKillOk <;> simp [hk]
  · simp [h]

/-- A single attach attempt changes neither the process handle nor
`startedVia` (it only touches the RPC handle). -/
theorem attachToServer_state (cfg : EditInNeovimSettings) (env : Env) (s : NeovimState)
    (el : Nat) :
    (attachToServer cfg env s el).1.process = s.process ∧
    (attachToServer cfg env s el).1.startedVia = s.startedVia := by
  unfold attachToServer
  cases attachPlan cfg.listenOn <;> by_cases h : env.probe el <;> simp [h]

/-- The wait loop changes neither the process handle nor `startedVia`. -/
theorem waitLoop_state (cfg : EditInNeovimSettings) (env : Env) (t : Nat) :
    ∀ (k e : Nat) (s : NeovimState), t - e ≤ k →
      (waitLoop cfg env s t e).state.process = s.process ∧
      (waitLoop cfg env s t e).state.startedVia = s.startedVia := by
  intro k
  induction k with
  | zero =>
    intro e s hk
    rw [waitLoop_neg cfg env s (by omega)]
    exact ⟨rfl, rfl⟩
  | succ k ih =>
    intro e s hk
    by_cases h : e < t
    · rw [waitLoop_pos cfg env s h]
      by_cases hr : (attachToServer cfg env s e).2.2
      · simp only [hr, if_true]
        exact attachToServer_state cfg env s e
      · simp only [hr]
        simp only [Bool.false_eq_true, if_false]
        have h1 := ih (e + 200) (attachToServer cfg env s e).1 (by omega)
        have h2 := attachToServer_state cfg env s e
        exact ⟨h1.1.trans h2.1, h1.2.trans h2.2⟩
    · rw [waitLoop_neg cfg env s h]
      exact ⟨rfl, rfl⟩

/-- The terminal-attach helper never raises a port-conflict notice. -/
theorem spawnTerminalToAttachTmux_no_portConflict (env : Env) (s : NeovimState) (nm : String) :
    Effect.notice NoticeKind.portConflict ∉ spawnTerminalToAttachTmux env s nm := by
  unfold spawnTerminalToAttachTmux
  cases s.termBinary <;> by_cases h : env.attachSpawnThrows <;> simp [h]

/-- The wait loop never records a notice in its trace. -/
theorem waitForServerReady_trace (cfg : EditInNeovimSettings) (env : Env) (s : NeovimState)
    (t : Nat) (n : NoticeKind) :
    Effect.notice n ∉ (waitForServerReady cfg env s t).trace :=
  waitLoop_trace_connects cfg env t t 0 s (by omega) n

/-- The tail of the tmux launch changes neither the process handle nor
`startedVia`. -/
theorem spawnWithTmuxGo_state (cfg : EditInNeovimSettings) (env : Env)
    (evars : List (String × String)) (s1 : NeovimState) (nm : String)
    (port : Option String) (se : Bool) :
    (spawnWithTmuxGo cfg env evars s1 nm port se).1.process = s1.process ∧
    (spawnWithTmuxGo cfg env evars s1 nm port se).1.startedVia = s1.startedVia := by
  simp only [spawnWithTmuxGo]
  split
  · exact ⟨rfl, rfl⟩
  · exact waitLoop_state cfg env 7000 7000 0 s1 (by omega)

/-- The tail of the tmux launch never raises a port-conflict notice. -/
theorem spawnWithTmuxGo_no_portConflict (cfg : EditInNeovimSettings) (env : Env)
    (evars : List (String × String)) (s1 : NeovimState) (nm : String)
    (port : Option String) (se : Bool) :
    Effect.notice NoticeKind.portConflict ∉ (spawnWithTmuxGo cfg env evars s1 nm port se).2 := by
  simp only [spawnWithTmuxGo]
  split
  · simp
  · intro hmem
    dsimp only at hmem
    simp only [List.mem_append] at hmem
    rcases hmem with ((h1 | h2) | h3) | h4
    · split at h1 <;> simp at h1
    · split at h2
      · exact spawnTerminalToAttachTmux_no_portConflict env s1 nm h2
      · simp at h2
    · exact waitForServerReady_trace cfg env s1 7000 _ h3
    · split at h4
      · simp at h4
      · split at h4 <;> simp at h4

/-- When the session already exists and the first probe succeeds against a
TCP address, the tmux launch tail ends attached. -/
theorem spawnWithTmuxGo_reconnect (cfg : EditInNeovimSettings) (env : Env)
    (evars : List (String × String)) (s1 : NeovimState) (nm : String)
    (port : Option String) (hprobe : env.probe 0 = true) {host : String} {prt : Int}
    (hplan : attachPlan cfg.listenOn = AttachPlan.tcp host prt) :
    (spawnWithTmuxGo cfg env evars s1 nm port true).1 = {s1 with rpc := some env.rpcId} := by
  simp only [spawnWithTmuxGo]
  rw [waitReady_first _ _ _ (by omega) hprobe hplan]
  simp

/-- The Boolean address guard of `attachPlan` holds exactly when the three
syntactic TCP conditions hold. -/
theorem attachPlan_guard (addr : String) :
    (decide (jsLastIndexOf addr ':' > 0) && !jsStartsWith addr "/" &&
      !containsSub addr "\\\\") = true ↔
    (jsLastIndexOf addr ':' > 0 ∧ jsStartsWith addr "/" = false ∧
      containsSub addr "\\\\" = false) := by
  simp [Bool.and_eq_true, decide_eq_true_eq, Bool.not_eq_true']
  tauto

/-- Helper `attachPlan` yields a TCP plan when the syntactic conditions hold and the
port parses. -/
theorem attachPlan_tcp_of (addr : String) {p : Int}
    (hc : jsLastIndexOf addr ':' > 0 ∧ jsStartsWith addr "/" = false ∧
      containsSub addr "\\\\" = false)
    (hn : jsParseInt (afterLastColon addr) = some p) :
    attachPlan addr = AttachPlan.tcp (beforeLastColon addr) p := by
  unfold attachPlan
  rw [if_pos ((attachPlan_guard addr).2 hc), hn]

/-- Helper `attachPlan` reports an invalid port when the syntactic conditions hold
but the port does not parse. -/
theorem attachPlan_invalid_of (addr : String)
    (hc : jsLastIndexOf addr ':' > 0 ∧ jsStartsWith addr "/" = false ∧
      containsSub addr "\\\\" = false)
    (hn : jsParseInt (afterLastColon addr) = none) :
    attachPlan addr = AttachPlan.invalidPort addr := by
  unfold attachPlan
  rw [if_pos ((attachPlan_guard addr).2 hc), hn]

/-- Helper `attachPlan` yields a socket plan when the syntactic conditions fail. -/
theorem attachPlan_sock_of (addr : String)
    (hc : ¬(jsLastIndexOf addr ':' > 0 ∧ jsStartsWith addr "/" = false ∧
      containsSub addr "\\\\" = false)) :
    attachPlan addr = AttachPlan.unixSocket addr := by
  unfold attachPlan
  rw [if_neg (fun hb => hc ((attachPlan_guard addr).1 hb))]

/-- Launching headless from `freshState` with a ready server yields the live
headless state. -/
theorem launch_headless_step :
    stepState freshState (Event.launch baseCfg sessionEnv) = headlessLiveState := by
  have hplan : attachPlan "127.0.0.1:2006" = AttachPlan.tcp "127.0.0.1" 2006 := by decide
  simp only [stepState]
  simp [newInstance, spawnHeadless, freshState, initialState, baseCfg, sessionEnv, baseEnv,
    buildExtraEnv]
  rw [waitReady_first _ _ _ (by omega) rfl hplan]
  decide

/-- Launching in tmux host mode from the live headless state reuses the
existing session and keeps the stale process handle. -/
theorem launch_tmux_step :
    stepState headlessLiveState (Event.launch tmuxCfg sessionEnv) = tmuxStaleState := by
  have hplan : attachPlan "127.0.0.1:2006" = AttachPlan.tcp "127.0.0.1" 2006 := by decide
  simp only [stepState]
  simp [newInstance, spawnWithTmux, spawnWithTmuxGo, headlessLiveState, tmuxCfg, baseCfg,
    sessionEnv, baseEnv, buildExtraEnv, jsOr, jsTrim, tmuxListenPort]
  rw [waitReady_first _ _ _ (by omega) rfl hplan]
  decide

/-- In the historical `openFile` variant, a remote open is only ever issued
after the port reachability query succeeded. -/
theorem openFileLegacy_gate (cfg : EditInNeovimSettings) (env : Env) (s : NeovimState)
    (f : TFile) :
    Effect.remoteOpen cfg.listenOn (env.getFullPath f.path) ∈ openFileLegacy cfg env s (some f) →
    env.portInUse (jsSplitLast cfg.listenOn ':') = true := by
  unfold openFileLegacy
  intro h
  by_cases hb : s.nvimBinary.getD "" = ""
  · simp [hb] at h
  · simp only [hb, if_false] at h
    split at h
    · simp at h
    · split at h
      · simp at h
      · split at h
        · simp at h
        · split at h
          · simp at h
          · next hcond =>
            simp only [Bool.not_eq_true] at hcond
            simpa using hcond

/-! ## Claim C1 -/

/-- Counterexample to claim C1 as stated: after `close()` from a live
headless session, `startedVia` is still `headless`, not `unknown` (`close`
never resets the field), even though both handles are cleared. -/
theorem close_keeps_startedVia_counterexample :
    (close baseCfg baseEnv headlessLiveState).1.process = none ∧
    (close baseCfg baseEnv headlessLiveState).1.rpc = none ∧
    (close baseCfg baseEnv headlessLiveState).1.startedVia = StartedVia.headless ∧
    (close baseCfg baseEnv headlessLiveState).1.startedVia ≠ StartedVia.unknown := by
  refine ⟨?_, ?_, ?_, ?_⟩ <;> decide

/-- Claim C1 (amended): after `close()` both the process handle and the RPC
handle are empty and `startedVia` retains its pre-close value instead of
resetting to `unknown`; a subsequent launch can succeed from this state
(under an nvim host mode, headless fallback, a valid binary, a successful
spawn and a first probe that succeeds against a TCP listen address, the new
launch ends with live handles and the server-started notice). -/
theorem close_then_launch (cfg cfg2 : EditInNeovimSettings) (env env2 : Env)
    (s : NeovimState) (p : String) (pid : Nat) (host : String) (prt : Int)
    (hbin : s.nvimBinary = some p) (hp : p ≠ "") (hterm : s.termBinary = none)
    (hm : cfg2.hostMode = HostMode.nvim) (hthrow : env2.spawnThrows = false)
    (hpid : env2.spawnPid = some pid) (hprobe : env2.probe 0 = true)
    (hplan : attachPlan cfg2.listenOn = AttachPlan.tcp host prt) :
    (close cfg env s).1.process = none ∧ (close cfg env s).1.rpc = none ∧
    (close cfg env s).1.startedVia = s.startedVia ∧
    (newInstance cfg2 env2 (close cfg env s).1).1.process = some pid ∧
    (newInstance cfg2 env2 (close cfg env s).1).1.rpc = some env2.rpcId ∧
    (newInstance cfg2 env2 (close cfg env s).1).1.startedVia = StartedVia.headless ∧
    Effect.notice NoticeKind.serverStarted ∈ (newInstance cfg2 env2 (close cfg env s).1).2 := by
  rw [close_clears]
  refine ⟨rfl, rfl, rfl, ?_⟩
  unfold newInstance
  simp only [hm, hbin, hterm]
  rw [spawnHeadless]
  simp only [hthrow, hpid]
  rw [waitReady_first _ _ _ (by omega) hprobe hplan]
  simp [hp]

/-- Witness for C1 at a concrete closed session. -/
theorem close_then_launch_witness :
    (close baseCfg baseEnv headlessLiveState).1.process = none ∧
    (close baseCfg baseEnv headlessLiveState).1.rpc = none ∧
    (close baseCfg baseEnv headlessLiveState).1.startedVia = headlessLiveState.startedVia ∧
    (newInstance baseCfg baseEnv (close baseCfg baseEnv headlessLiveState).1).1.process = some 42 ∧
    (newInstance baseCfg baseEnv (close baseCfg baseEnv headlessLiveState).1).1.rpc =
      some baseEnv.rpcId ∧
    (newInstance baseCfg baseEnv (close baseCfg baseEnv headlessLiveState).1).1.startedVia =
      StartedVia.headless ∧
    Effect.notice NoticeKind.serverStarted ∈
      (newInstance baseCfg baseEnv (close baseCfg baseEnv headlessLiveState).1).2 :=
  close_then_launch baseCfg baseCfg baseEnv baseEnv headlessLiveState "/usr/bin/nvim" 42
    "127.0.0.1" 2006 rfl (by decide) rfl rfl rfl rfl rfl (by decide)

/-! ## Claim C2 -/

/-- Counterexample to claim C2 as stated: with no RPC handle, no process
handle, and nothing listening on any port, the current `openFile` still
issues the remote open command for a supported file. -/
theorem openFile_no_reachability_counterexample :
    freshState.rpc = none ∧ freshState.process = none ∧
    deadEnv.portInUse "2006" = false ∧
    openFile baseCfg deadEnv freshState (some mdFile) =
      [Effect.remoteOpen "127.0.0.1:2006" "/vault/a.md"] :=
  ⟨rfl, rfl, rfl, by decide⟩

/-- Claim C2 (amended): once the file is present, the editor binary path is
non-empty, and the extension check passes, the current `openFile` issues the
remote open command unconditionally, with no reachability precondition (the
process-and-RPC-pair / port gate exists only in the superseded variant of
`openFile`, see `openFileLegacy_gate`). -/
theorem openFile_unconditional (cfg : EditInNeovimSettings) (env : Env) (s : NeovimState)
    (f : TFile) (p : String) (hbin : s.nvimBinary = some p) (hp : p ≠ "")
    (hsup : f.extension ∈ cfg.supportedFileTypes) :
    openFile cfg env s (some f) =
      [Effect.remoteOpen cfg.listenOn (env.getFullPath f.path)] := by
  unfold openFile
  simp [hbin, hp, hsup]

/-- Witness for C2 on a supported markdown file with empty handles. -/
theorem openFile_unconditional_witness :
    openFile baseCfg deadEnv freshState (some mdFile) =
      [Effect.remoteOpen baseCfg.listenOn (deadEnv.getFullPath mdFile.path)] :=
  openFile_unconditional baseCfg deadEnv freshState mdFile "/usr/bin/nvim" rfl
    (by decide) (by decide)

/-! ## Claim C3 -/

/-- Counterexample to claim C3 as stated: a state with `startedVia = tmux`
and a live process handle is reachable — launch headless in nvim host mode,
then (after the host mode setting changes to tmux) launch again; the tmux
launch flips `startedVia` without clearing the stale process handle. -/
theorem tmux_process_invariant_counterexample :
    Reachable freshState tmuxStaleState ∧
    tmuxStaleState.startedVia = StartedVia.tmux ∧ tmuxStaleState.process = some 42 := by
  refine ⟨?_, rfl, rfl⟩
  have r1 : Reachable freshState headlessLiveState :=
    launch_headless_step ▸ Reachable.step (Event.launch baseCfg sessionEnv) Reachable.refl
  exact launch_tmux_step ▸ Reachable.step (Event.launch tmuxCfg sessionEnv) r1

/-- Claim C3 (amended): no tmux-mode launch path ever assigns the local
process handle — `spawnWithTmux` always leaves it unchanged, and so does
`newInstance` whenever the host mode is tmux.  The stated invariant can fail
only through a handle left over from an earlier nvim-mode launch. -/
theorem tmux_launch_preserves_process (cfg : EditInNeovimSettings) (env : Env)
    (evars : List (String × String)) (s : NeovimState) :
    (spawnWithTmux cfg env evars s).1.process = s.process ∧
    (cfg.hostMode = HostMode.tmux → (newInstance cfg env s).1.process = s.process) := by
  have hmain : ∀ ev : List (String × String),
      (spawnWithTmux cfg env ev s).1.process = s.process := by
    intro ev
    unfold spawnWithTmux
    by_cases hw : env.win32
    · simp [hw]
    · simp only [hw]
      cases htb : s.tmuxBinary with
      | none => simp
      | some tb =>
        simp only [Bool.false_eq_true, if_false]
        split
        · rfl
        · exact (spawnWithTmuxGo_state cfg env ev _ _ _ _).1
  refine ⟨hmain evars, fun hm => ?_⟩
  unfold newInstance
  simp only [hm]
  by_cases hb : (s.nvimBinary = none ∨ s.nvimBinary = some "")
  · simp [hb]
  · simp [hb, hmain]

/-- Witness for C3: a tmux-mode launch over a live headless session leaves
the process handle untouched. -/
theorem tmux_launch_preserves_process_witness :
    (newInstance tmuxCfg baseEnv headlessLiveState).1.process = headlessLiveState.process :=
  (tmux_launch_preserves_process tmuxCfg baseEnv [] headlessLiveState).2 rfl

/-! ## Claim C4 -/

/-- Counterexample to claim C4 as stated: `"127.0.0.1:"` satisfies the three
syntactic TCP conditions but its port does not parse; the attacher then
fails the attempt without opening anything — it does not fall back to
treating the whole string as a socket path. -/
theorem attachToServer_invalidPort_counterexample :
    jsLastIndexOf "127.0.0.1:" ':' > 0 ∧ jsStartsWith "127.0.0.1:" "/" = false ∧
    containsSub "127.0.0.1:" "\\\\" = false ∧
    (attachToServer badPortCfg baseEnv freshState 0).2.1 = [] ∧
    (attachToServer badPortCfg baseEnv freshState 0).2.2 = false := by
  refine ⟨by decide, by decide, by decide, by decide, by decide⟩

/-- Claim C4 (amended): the attacher opens a TCP connection exactly when the
address has a colon after position 0, does not start with `/`, contains no
escaped backslash, and the substring after the last colon parses as an
integer; when the three syntactic conditions fail it treats the whole string
as a socket path; when they hold but the port does not parse, the attempt
fails with no connection attempted (rather than falling back to a socket
path). -/
theorem attachToServer_address_parsing (cfg : EditInNeovimSettings) (env : Env)
    (s : NeovimState) (el : Nat) :
    ((∃ h p, Effect.connectTCP h p ∈ (attachToServer cfg env s el).2.1) ↔
      (jsLastIndexOf cfg.listenOn ':' > 0 ∧ jsStartsWith cfg.listenOn "/" = false ∧
       containsSub cfg.listenOn "\\\\" = false ∧
       jsParseInt (afterLastColon cfg.listenOn) ≠ none)) ∧
    (¬(jsLastIndexOf cfg.listenOn ':' > 0 ∧ jsStartsWith cfg.listenOn "/" = false ∧
       containsSub cfg.listenOn "\\\\" = false) →
      Effect.connectPipe cfg.listenOn ∈ (attachToServer cfg env s el).2.1) ∧
    ((jsLastIndexOf cfg.listenOn ':' > 0 ∧ jsStartsWith cfg.listenOn "/" = false ∧
      containsSub cfg.listenOn "\\\\" = false ∧
      jsParseInt (afterLastColon cfg.listenOn) = none) →
      (attachToServer cfg env s el).2.1 = [] ∧ (attachToServer cfg env s el).2.2 = false) := by
  by_cases hc : (jsLastIndexOf cfg.listenOn ':' > 0 ∧ jsStartsWith cfg.listenOn "/" = false ∧
      containsSub cfg.listenOn "\\\\" = false)
  · by_cases hn : jsParseInt (afterLastColon cfg.listenOn) = none
    · have hplan := attachPlan_invalid_of cfg.listenOn hc hn
      refine ⟨?_, fun h => absurd hc h, fun _ => ?_⟩
      · simp [attachToServer, hplan, hn]
      · simp [attachToServer, hplan]
    · obtain ⟨p, hp⟩ := Option.ne_none_iff_exists'.1 hn
      have hplan := attachPlan_tcp_of cfg.listenOn hc hp
      refine ⟨?_, fun h => absurd hc h, fun h => absurd h.2.2.2 hn⟩
      simp only [attachToServer, hplan]
      by_cases hpr : env.probe el <;> simp [hpr, hc, hn]
  · have hplan := attachPlan_sock_of cfg.listenOn hc
    refine ⟨?_, fun _ => ?_, fun h => absurd ⟨h.1, h.2.1, h.2.2.1⟩ hc⟩
    · simp only [attachToServer, hplan]
      constructor
      · rintro ⟨h, p, hm⟩
        by_cases hpr : env.probe el <;> simp [hpr] at hm
      · intro h
        exact absurd ⟨h.1, h.2.1, h.2.2.1⟩ hc
    · simp only [attachToServer, hplan]
      by_cases hpr : env.probe el <;> simp [hpr]

/-- Witness for C4: the socket-path scenario `"/tmp/nvim.sock"`. -/
theorem attachToServer_address_parsing_witness :
    Effect.connectPipe "/tmp/nvim.sock" ∈ (attachToServer sockCfg baseEnv freshState 0).2.1 :=
  (attachToServer_address_parsing sockCfg baseEnv freshState 0).2.1 (by decide)

/-! ## Claim C5 -/

/-- Counterexample to the "check is skipped" part of claim C5: when the
session already exists and the TCP port is busy, the launch does proceed,
but the port-in-use query is still executed (it appears in the trace). -/
theorem tmux_port_check_runs_counterexample :
    busySessionEnv.tmuxHasSessionO "edit-in-neovim" = true ∧
    Effect.portQuery "2006" ∈ (spawnWithTmux tmuxCfg busySessionEnv [] freshState).2 := by
  refine ⟨rfl, ?_⟩
  have hname : jsTrim (jsOr tmuxCfg.tmuxSessionName "edit-in-neovim") = "edit-in-neovim" := by
    decide
  have hport : tmuxListenPort tmuxCfg.listenOn = some "2006" := by decide
  unfold spawnWithTmux
  simp [hname, hport, show busySessionEnv.win32 = false from rfl,
    show freshState.tmuxBinary = some "/usr/bin/tmux" from rfl,
    show busySessionEnv.portInUse "2006" = true from rfl,
    show busySessionEnv.tmuxHasSessionO "edit-in-neovim" = true from rfl]

/-- Claim C5 (amended): on a non-Windows platform with a tmux binary, the
tmux launch refuses with the port-conflict notice exactly when the listen
address is TCP, its port is in use, and no session of the configured name
exists; when the session does exist, the port query still runs but its
result is ignored and the launch proceeds to reconnect (ending attached when
the probe succeeds). -/
theorem spawnWithTmux_portConflict (cfg : EditInNeovimSettings) (env : Env)
    (evars : List (String × String)) (s : NeovimState) (tb : String)
    (hwin : env.win32 = false) (htb : s.tmuxBinary = some tb) :
    (Effect.notice NoticeKind.portConflict ∈ (spawnWithTmux cfg env evars s).2 ↔
      ((∃ p, tmuxListenPort cfg.listenOn = some p ∧ env.portInUse p = true) ∧
        env.tmuxHasSessionO (jsTrim (jsOr cfg.tmuxSessionName "edit-in-neovim")) = false)) ∧
    (∀ host prt, env.tmuxHasSessionO (jsTrim (jsOr cfg.tmuxSessionName "edit-in-neovim")) = true →
      env.probe 0 = true → attachPlan cfg.listenOn = AttachPlan.tcp host prt →
      (spawnWithTmux cfg env evars s).1.rpc = some env.rpcId ∧
      (spawnWithTmux cfg env evars s).1.startedVia = StartedVia.tmux) := by
  unfold spawnWithTmux
  simp only [hwin, Bool.false_eq_true, if_false, htb]
  constructor
  · constructor
    · intro hmem
      rcases hpp : tmuxListenPort cfg.listenOn with _ | p
      · rw [hpp] at hmem
        simp at hmem
        exact absurd hmem (spawnWithTmuxGo_no_portConflict cfg env evars _ _ _ _)
      · by_cases hbusy : env.portInUse p = true
        · by_cases hex : env.tmuxHasSessionO
            (jsTrim (jsOr cfg.tmuxSessionName "edit-in-neovim")) = true
          · rw [hpp] at hmem
            simp [hbusy, hex] at hmem
            exact absurd hmem (spawnWithTmuxGo_no_portConflict cfg env evars _ _ _ _)
          · exact ⟨⟨p, rfl, hbusy⟩, eq_false_of_ne_true hex⟩
        · have hbusy' : env.portInUse p = false := eq_false_of_ne_true hbusy
          rw [hpp] at hmem
          simp [hbusy'] at hmem
          exact absurd hmem (spawnWithTmuxGo_no_portConflict cfg env evars _ _ _ _)
    · rintro ⟨⟨p, hp, hbusy⟩, hnex⟩
      rw [hp]
      simp [hbusy, hnex]
  · intro host prt hex hprobe hplan
    simp only [hex, Bool.not_true, Bool.and_false, Bool.false_eq_true, if_false]
    rw [spawnWithTmuxGo_reconnect cfg env evars _ _ _ hprobe hplan]
    simp

/-- Witness for C5: with an existing session and a busy port, the launch is
not refused and reconnects. -/
theorem spawnWithTmux_portConflict_witness :
    (spawnWithTmux tmuxCfg busySessionEnv [] freshState).1.rpc = some busySessionEnv.rpcId ∧
    (spawnWithTmux tmuxCfg busySessionEnv [] freshState).1.startedVia = StartedVia.tmux :=
  (spawnWithTmux_portConflict tmuxCfg busySessionEnv [] freshState "/usr/bin/tmux" rfl rfl).2
    "127.0.0.1" 2006 rfl rfl (by decide)

/-! ## Claim C6 -/

/-- Claim C6: once past the two refusal guards, the launch entry point
dispatches exactly as the spec-side selector prescribes — tmux whenever the
host mode is tmux (regardless of terminal availability), otherwise headless
when no terminal binary resolved, otherwise terminal. -/
theorem newInstance_strategy (cfg : EditInNeovimSettings) (env : Env) (s : NeovimState)
    (hg1 : ¬(cfg.hostMode = HostMode.nvim ∧ s.process.isSome = true))
    (hg2 : ¬(s.nvimBinary = none ∨ s.nvimBinary = some "")) :
    newInstance cfg env s =
      (match selectStrategySpec cfg.hostMode s.termBinary.isSome with
       | LaunchStrategy.tmux => spawnWithTmux cfg env (buildExtraEnv cfg s) s
       | LaunchStrategy.headless => spawnHeadless cfg env (buildExtraEnv cfg s) s
       | LaunchStrategy.terminal => spawnWithTerminal cfg env (buildExtraEnv cfg s) s) := by
  unfold newInstance selectStrategySpec
  cases hm : cfg.hostMode <;> cases ht : s.termBinary <;> simp_all [hm, ht]

/-- Witness for C6: tmux host mode selects tmux even with a live process. -/
theorem newInstance_strategy_witness :
    newInstance tmuxCfg baseEnv headlessLiveState =
      (match selectStrategySpec tmuxCfg.hostMode headlessLiveState.termBinary.isSome with
       | LaunchStrategy.tmux =>
          spawnWithTmux tmuxCfg baseEnv (buildExtraEnv tmuxCfg headlessLiveState)
            headlessLiveState
       | LaunchStrategy.headless =>
          spawnHeadless tmuxCfg baseEnv (buildExtraEnv tmuxCfg headlessLiveState)
            headlessLiveState
       | LaunchStrategy.terminal =>
          spawnWithTerminal tmuxCfg baseEnv (buildExtraEnv tmuxCfg headlessLiveState)
            headlessLiveState) :=
  newInstance_strategy tmuxCfg baseEnv headlessLiveState (by decide) (by decide)

/-! ## Claim C7 -/

/-- Claim C7: in nvim host mode with a live process handle, a second launch
returns only the already-running notice and leaves the state — in particular
both handles — exactly unchanged. -/
theorem newInstance_alreadyRunning (cfg : EditInNeovimSettings) (env : Env)
    (s : NeovimState) (hm : cfg.hostMode = HostMode.nvim) (hp : s.process.isSome = true) :
    newInstance cfg env s = (s, [Effect.notice NoticeKind.alreadyRunning]) := by
  unfold newInstance
  simp [hm, hp]

/-- Witness for C7 at a live headless session. -/
theorem newInstance_alreadyRunning_witness :
    newInstance baseCfg baseEnv headlessLiveState =
      (headlessLiveState, [Effect.notice NoticeKind.alreadyRunning]) :=
  newInstance_alreadyRunning baseCfg baseEnv headlessLiveState rfl rfl

/-! ## Claim C8 -/

/-- Claim C8: `waitForServerReady` is a total function (it never raises and
never hangs).  When every probe fails — in particular when nothing is
listening at the address — it returns `false`, within one 200ms poll
interval past the timeout, polling on the fixed 200ms grid; and it repeats
attempts exactly until one succeeds: the first successful probe on the grid
inside the window stops the loop with `true` at that instant. -/
theorem waitForServerReady_terminates (cfg : EditInNeovimSettings) (env : Env)
    (s : NeovimState) (timeoutMs : Nat) :
    ((∀ n, env.probe n = false) →
      (waitForServerReady cfg env s timeoutMs).ready = false ∧
      (waitForServerReady cfg env s timeoutMs).elapsed < timeoutMs + 200 ∧
      (waitForServerReady cfg env s timeoutMs).elapsed % 200 = 0) ∧
    ((∀ a, attachPlan cfg.listenOn ≠ AttachPlan.invalidPort a) →
      ∀ e, e < timeoutMs → e % 200 = 0 → env.probe e = true →
      (∀ e2, e2 < e → e2 % 200 = 0 → env.probe e2 = false) →
      (waitForServerReady cfg env s timeoutMs).ready = true ∧
      (waitForServerReady cfg env s timeoutMs).elapsed = e) :=
  ⟨fun h => waitLoop_allFail cfg env h timeoutMs timeoutMs 0 s (by omega) (by omega) (by omega),
   fun hplan e he hem hp hmin =>
     waitLoop_firstSuccess cfg env hplan timeoutMs e he hem hp hmin timeoutMs 0 s
       (by omega) (by omega) (by omega)⟩

/-- Witness for C8 with the 5000ms default timeout and a dead address. -/
theorem waitForServerReady_terminates_witness :
    (waitForServerReady baseCfg deadEnv freshState 5000).ready = false ∧
    (waitForServerReady baseCfg deadEnv freshState 5000).elapsed < 5000 + 200 ∧
    (waitForServerReady baseCfg deadEnv freshState 5000).elapsed % 200 = 0 :=
  (waitForServerReady_terminates baseCfg deadEnv freshState 5000).1 (fun _ => rfl)

/-! ## Claim C9 -/

/-- Claim C9: `onObsidianQuit` with `startedVia = tmux` and the keep-alive
flag performs a purely local disconnect — the trace is empty, so the
multiplexer is never contacted, and only the two handles are cleared; in
every other case it performs exactly the full `close`. -/
theorem onObsidianQuit_dispatch (cfg : EditInNeovimSettings) (env : Env) (s : NeovimState) :
    (s.startedVia = StartedVia.tmux → cfg.tmuxKeepAliveOnQuit = true →
      onObsidianQuit cfg env s = ({s with rpc := none, process := none}, [])) ∧
    (¬(s.startedVia = StartedVia.tmux ∧ cfg.tmuxKeepAliveOnQuit = true) →
      onObsidianQuit cfg env s = close cfg env s) := by
  constructor
  · intro h1 h2
    simp [onObsidianQuit, h1, h2, disconnect]
  · intro h
    simp [onObsidianQuit, h]

/-- Witness for C9 at a live tmux session with the keep-alive flag. -/
theorem onObsidianQuit_dispatch_witness :
    onObsidianQuit keepAliveCfg baseEnv tmuxLiveState =
      ({tmuxLiveState with rpc := none, process := none}, []) :=
  (onObsidianQuit_dispatch keepAliveCfg baseEnv tmuxLiveState).1 rfl rfl

/-! ## Claim C10 -/

/-- Claim C10: `getBuffers` is total (never raises): it returns the empty
list with no effects when no RPC handle is attached, the queried buffers
when the query succeeds, and the empty list after a notice when the query
fails. -/
theorem getBuffers_never_raises (env : Env) (s : NeovimState) :
    (s.rpc = none → getBuffers env s = ([], [])) ∧
    (∀ h bufs, s.rpc = some h → env.buffersResult h = Except.ok bufs →
      getBuffers env s = (bufs, [])) ∧
    (∀ h e, s.rpc = some h → env.buffersResult h = Except.error e →
      getBuffers env s = ([], [Effect.notice NoticeKind.bufferError])) := by
  refine ⟨fun h => by simp [getBuffers, h], fun h bufs hr hq => ?_, fun h e hr hq => ?_⟩
  · simp [getBuffers, hr, hq]
  · simp [getBuffers, hr, hq]

/-- Witness for C10 with no RPC handle attached. -/
theorem getBuffers_never_raises_witness :
    getBuffers baseEnv freshState = ([], []) :=
  (getBuffers_never_raises baseEnv freshState).1 rfl

end EditInNeovim
